import Mathlib

/-!
Shallow embedding of the GFT orchestration scripts (`complexity.py`,
`ripples_flight.py`) and of `gft/saveAllLands.py`.

Python floats are modelled as exact rationals (`ℚ`); the coordinate and
parameter values appearing in the scripts are exactly representable, and the
Python `round`/format-spec behaviour (round half to even) is modelled
explicitly.  Filesystem state is passed in as a predicate
`exists0 : String → Bool` giving the files present when a loop starts, and the
effects of each loop are modelled as explicit lists of writes it performs.
External libraries (shapely, cartopy, matplotlib, pyguymer3) appear only
through their results: a shapely polygon is its exterior ring, a shapefile
record carries the polygon list that `extract_polys` would return for it.
-/

namespace GFT

/-- Round the rational `n / d` (with `d > 0`) to the nearest natural number,
ties to even — the rounding used by Python `round` and by `printf`-style
float formatting of exactly representable values. -/
def natRoundHalfEven (n d : Nat) : Nat :=
  if 2 * (n % d) < d then n / d
  else if d < 2 * (n % d) then n / d + 1
  else if (n / d) % 2 = 0 then n / d else n / d + 1

/-- Python `round` on a rational value (round half to even). -/
def pyRound (q : ℚ) : ℤ :=
  if 0 ≤ q.num then (natRoundHalfEven q.num.toNat q.den : ℤ)
  else -(natRoundHalfEven q.num.natAbs q.den : ℤ)

/-- Pad a string on the left with a fill character up to the given width. -/
def myPadLeft (w : Nat) (c : Char) (s : String) : String :=
  String.mk (List.replicate (w - s.length) c) ++ s

/-- Digits of `na / den` rounded to `dec` decimal places (the body of a Python
`{:.{dec}f}` format of the nonnegative value `na / den`). -/
def fixedBodyCore (dec na den : Nat) : String :=
  let m := natRoundHalfEven (na * 10 ^ dec) den
  toString (m / 10 ^ dec) ++ "." ++ myPadLeft dec '0' (toString (m % 10 ^ dec))

/-- Unsigned body of a Python fixed-point format of `q` (digits of `|q|`). -/
def fixedBody (dec : Nat) (q : ℚ) : String :=
  fixedBodyCore dec q.num.natAbs q.den

/-- Python `{:.{dec}f}`. -/
def pyFmtF (dec : Nat) (q : ℚ) : String :=
  (if q.num < 0 then "-" else "") ++ fixedBody dec q

/-- Python `{:+.{dec}f}` (always shows the sign). -/
def pyFmtPlusF (dec : Nat) (q : ℚ) : String :=
  (if q.num < 0 then "-" else "+") ++ fixedBody dec q

/-- Python `{:+0{width}.{dec}f}`: forced sign, zero-padded to total width. -/
def pyFmtPlusPadF (dec width : Nat) (q : ℚ) : String :=
  (if q.num < 0 then "-" else "+") ++ myPadLeft (width - 1) '0' (fixedBody dec q)

/-- Python `{:0{width}.{dec}f}`: zero-padded to total width, sign only when
negative. -/
def pyFmtZeroPadF (dec width : Nat) (q : ℚ) : String :=
  if q.num < 0 then "-" ++ myPadLeft (width - 1) '0' (fixedBody dec q)
  else myPadLeft width '0' (fixedBody dec q)

/-- Python `{:.2e}` of a nonnegative integer (the precisions formatted in the
directory names). -/
def pyFmtE2 (n : Nat) : String :=
  if n = 0 then "0.00e+00"
  else
    let e := (toString n).length - 1
    let m := natRoundHalfEven (n * 100) (10 ^ e)
    let m2 := if 1000 ≤ m then m / 10 else m
    let e2 := if 1000 ≤ m then e + 1 else e
    toString (m2 / 100) ++ "." ++ myPadLeft 2 '0' (toString (m2 % 100))
      ++ "e+" ++ myPadLeft 2 '0' (toString e2)

/-- Python `{:0{width}d}` of an integer. -/
def pyFmtIntPad (width : Nat) (i : ℤ) : String :=
  if i < 0 then "-" ++ myPadLeft (width - 1) '0' (toString i.natAbs)
  else myPadLeft width '0' (toString i.natAbs)

/-- Python `{:0{width}d}` of a natural number. -/
def pyFmtNatPad (width : Nat) (n : Nat) : String :=
  myPadLeft width '0' (toString n)

/-! Constants shared by the two top-level scripts. -/

/-- Starting longitude (Tokyo Haneda), `lon = 139.779999`. -/
def lon : ℚ := 139.779999

/-- Starting latitude (Tokyo Haneda), `lat = 35.552299`. -/
def lat : ℚ := 35.552299

/-- Speed, `spd = 500.0` knots. -/
def spd : ℚ := 500.0

/-- One parameter combination of the sweep: angle count, Natural Earth
coastline resolution, step precision, and the RGBA plot colour. -/
structure Comb where
  nAng : Nat
  neRes : String
  prec : Nat
  color : ℚ × ℚ × ℚ × ℚ

/-- The combinations list defined identically in `complexity.py` and
`ripples_flight.py`. -/
def combs : List Comb :=
  [⟨9, "110m", 116000, (1.0, 0.0, 0.0, 1.0)⟩,
   ⟨17, "50m", 116000 / 2, (0.0, 1.0, 0.0, 1.0)⟩,
   ⟨33, "10m", 116000 / 4, (0.0, 0.0, 1.0, 1.0)⟩]

/-- Python `freqLand = 8 * 928000 // prec`. -/
def freqLand (c : Comb) : Nat := 8 * 928000 / c.prec

/-- Python `freqPlot = 928000 // prec`. -/
def freqPlot (c : Comb) : Nat := 928000 / c.prec

/-- Python `freqSimp = 928000 // prec`. -/
def freqSimp (c : Comb) : Nat := 928000 / c.prec

/-! GFT subprocess commands.  `pv` stands for the string returned by
`sysconfig.get_python_version()`. -/

/-- The GFT command built for one combination in `complexity.py`. -/
def gftCmd_complexity (pv : String) (debug : Bool) (c : Comb) : List String :=
  ["python" ++ pv, "-m", "gft",
   "0.0", "0.0", pyFmtF 1 spd,
   "--duration", "0.01",
   "--freqLand", toString (freqLand c),
   "--freqPlot", toString (freqPlot c),
   "--freqSimp", toString (freqSimp c),
   "--GSHHG-resolution", "c",
   "--nAng", toString c.nAng,
   "--NE-resolution", c.neRes,
   "--precision", pyFmtF 1 (c.prec : ℚ)]
  ++ (if debug then ["--debug"] else [])

/-- The string `f"{dur / 24.0:.2f}"` passed as `--duration` by
`ripples_flight.py`. -/
def durStr (dur : Nat) : String := pyFmtF 2 ((dur : ℚ) / 24)

/-- The GFT command built for one (duration, combination) pair in
`ripples_flight.py`. -/
def gftCmd_ripples (pv : String) (debug plot : Bool) (dur : Nat) (c : Comb) :
    List String :=
  ["python" ++ pv, "-m", "gft",
   pyFmtPlusF 6 lon, pyFmtPlusF 6 lat, pyFmtF 1 spd,
   "--duration", durStr dur,
   "--freqLand", toString (freqLand c),
   "--freqPlot", toString (freqPlot c),
   "--freqSimp", toString (freqSimp c),
   "--GSHHG-resolution", "c",
   "--nAng", toString c.nAng,
   "--NE-resolution", c.neRes,
   "--precision", pyFmtF 1 (c.prec : ℚ)]
  ++ (if debug then ["--debug"] else [])
  ++ (if plot then ["--plot"] else [])

/-- All commands built by the sweep loop of `complexity.py`. -/
def complexityBuilt (pv : String) (debug : Bool) : List (List String) :=
  combs.map (gftCmd_complexity pv debug)

/-- The commands actually passed to `subprocess.run` by `complexity.py`:
each loop iteration runs its command unless `--dry-run` was given. -/
def complexityRuns (pv : String) (debug dryRun : Bool) : List (List String) :=
  combs.flatMap fun c => if dryRun then [] else [gftCmd_complexity pv debug c]

/-- The durations 1..24 hours swept by `ripples_flight.py`. -/
def ripplesDurs : List Nat := List.range' 1 24

/-- All commands built by the sweep loops of `ripples_flight.py`. -/
def ripplesBuilt (pv : String) (debug plot : Bool) : List (List String) :=
  ripplesDurs.flatMap fun dur => combs.map (gftCmd_ripples pv debug plot dur)

/-- The commands actually passed to `subprocess.run` by `ripples_flight.py`. -/
def ripplesRuns (pv : String) (debug plot dryRun : Bool) : List (List String) :=
  ripplesDurs.flatMap fun dur => combs.flatMap fun c =>
    if dryRun then [] else [gftCmd_ripples pv debug plot dur c]

/-! Convention-based paths. -/

/-- The string `f"{lon:+011.6f}"` as used in directory names. -/
def lonStr : String := pyFmtPlusPadF 6 11 lon

/-- The string `f"{lat:+010.6f}"` as used in directory names. -/
def latStr : String := pyFmtPlusPadF 6 10 lat

/-- The output directory name built by `ripples_flight.py` from `combs`. -/
def outDir : String :=
  String.intercalate "_"
    ["nAng=" ++ String.intercalate "," (combs.map fun c => toString c.nAng),
     "neRes=" ++ String.intercalate "," (combs.map fun c => c.neRes),
     "prec=" ++ String.intercalate "," (combs.map fun c => pyFmtE2 c.prec)]

/-- The frame PNG path for a distance (in km):
`f"{outDir}/lon=..._lat=.../dist={dist:05d}_Flight.png"`. -/
def framePath (dist : Nat) : String :=
  outDir ++ "/lon=" ++ lonStr ++ "_lat=" ++ latStr ++ "/dist="
    ++ pyFmtNatPad 5 dist ++ "_Flight.png"

/-- The per-combination result directory used by `ripples_flight.py`. -/
def dname_ripples (c : Comb) : String :=
  "res=" ++ c.neRes ++ "_cons=2.00e+00_tol=1.00e-10/local=F_nAng="
    ++ toString c.nAng ++ "_prec=" ++ pyFmtE2 c.prec
    ++ "/freqLand=" ++ toString (freqLand c)
    ++ "_freqSimp=" ++ toString (freqSimp c)
    ++ "_lon=" ++ lonStr ++ "_lat=" ++ latStr ++ "/limit"

/-- The step result file `f"{dname}/istep={i:06d}.wkb.gz"`. -/
def istepPath (c : Comb) (i : ℤ) : String :=
  dname_ripples c ++ "/istep=" ++ pyFmtIntPad 6 i ++ ".wkb.gz"

/-- The per-combination directory used by `complexity.py`. -/
def dname_complexity (c : Comb) : String :=
  "res=" ++ c.neRes ++ "_cons=2.00e+00_tol=1.00e-10/local=F_nAng="
    ++ toString c.nAng ++ "_prec=" ++ pyFmtE2 c.prec

/-- The aggregated land file read by `complexity.py`. -/
def allLandsPath (c : Comb) : String := dname_complexity c ++ "/allLands.wkb.gz"

/-- The histogram PNG written by `complexity.py`. -/
def complexityPngPath (c : Comb) : String :=
  "complexity_res=" ++ c.neRes ++ "_cons=2.00e+00_nAng=" ++ toString c.nAng
    ++ "_prec=" ++ pyFmtE2 c.prec ++ ".png"

/-! The `saveAllLands` model. -/

/-- A shapely polygon, reduced to its exterior ring of (lon, lat) points —
the only part the scripts inspect. -/
structure Polygon where
  exterior : List (ℚ × ℚ)

/-- A Natural Earth shapefile record: the `NAME` attribute, the centroid and
area of its geometry (which name its temporary file), and the polygon list
that results from extracting and post-processing its geometry (clipping and
buffering are done by external libraries, so the list is carried as data). -/
structure Record where
  name : String
  centroidX : ℚ
  centroidY : ℚ
  area : ℚ
  polys : List Polygon

/-- The default `avoidCountries` argument of `saveAllLands`. -/
def avoidCountriesDefault : List String := ["Baikonur", "Iran", "Russia", "Ukraine"]

/-- The temporary per-country compressed WKB file name
`f"{dname}/{x:+011.6f},{y:+010.6f},{area:012.7f}.wkb.gz"`. -/
def tmpPath (dname : String) (r : Record) : String :=
  dname ++ "/" ++ pyFmtPlusPadF 6 11 r.centroidX ++ ","
    ++ pyFmtPlusPadF 6 10 r.centroidY ++ ","
    ++ pyFmtZeroPadF 7 12 r.area ++ ".wkb.gz"

/-- State of the record loop of `saveAllLands`: which records had their
geometry extracted and processed, and which temporary files were written. -/
structure Phase1State where
  computed : List Record
  writes : List String

/-- One iteration of the record loop of `saveAllLands`: skip the record unless
its name is in `avoidCountries`; skip it if its temporary file already exists
(checking the initial filesystem and the files written so far); otherwise
process its geometry, and write the temporary file unless no polygon came
out. -/
def saveAllLandsStep (exists0 : String → Bool) (dname : String)
    (avoid : List String) (st : Phase1State) (r : Record) : Phase1State :=
  if avoid.contains r.name then
    if exists0 (tmpPath dname r) || st.writes.contains (tmpPath dname r) then st
    else if r.polys.isEmpty then { st with computed := st.computed ++ [r] }
    else { computed := st.computed ++ [r], writes := st.writes ++ [tmpPath dname r] }
  else st

/-- The record loop of `saveAllLands`, folded over the shapefile records. -/
def saveAllLandsPhase1 (exists0 : String → Bool) (dname : String)
    (avoid : List String) (records : List Record) : Phase1State :=
  records.foldl (saveAllLandsStep exists0 dname avoid) ⟨[], []⟩

/-- The derived `gName`: the `wName` with a `.wkb.gz` suffix replaced by `.geojson`
(Python `wName.removesuffix(".wkb.gz") + ".geojson"`). -/
def gNameOf (w : String) : String :=
  (if w.endsWith ".wkb.gz" then w.dropRight 7 else w) ++ ".geojson"

/-- The aggregation phase of `saveAllLands`: `files` is the sorted glob of
temporary files paired with the polygons each yields.  Returns the Boolean
result of `saveAllLands` and the list of output files it writes. -/
def saveAllLandsAggregate (wName : String)
    (files : List (String × List Polygon)) : Bool × List String :=
  if (files.flatMap fun f => f.2).isEmpty then (false, [])
  else (true, [wName, gNameOf wName])

/-! The complexity histogram. -/

/-- Number of longitude cells, `nLon = 36`. -/
def nLon : Nat := 36

/-- Number of latitude cells, `nLat = 18`. -/
def nLat : Nat := 18

/-- Cell width in degrees, `dLon = 10.0`. -/
def dLon : ℚ := 10

/-- Cell height in degrees, `dLat = 10.0`. -/
def dLat : ℚ := 10

/-- Python `iLon = max(0, min(nLon - 1, floor((lon + 180.0) / dLon)))`. -/
def iLonOf (x : ℚ) : ℤ := max 0 (min ((nLon : ℤ) - 1) ⌊(x + 180) / dLon⌋)

/-- Python `iLat = max(0, min(nLat - 1, floor((90.0 - lat) / dLat)))`. -/
def iLatOf (y : ℚ) : ℤ := max 0 (min ((nLat : ℤ) - 1) ⌊(90 - y) / dLat⌋)

/-- The (row, column) histogram cell a coordinate falls in. -/
def pixelOf (c : ℚ × ℚ) : ℤ × ℤ := (iLatOf c.2, iLonOf c.1)

/-- All exterior-ring coordinates over all polygons of a file. -/
def allCoords (polys : List Polygon) : List (ℚ × ℚ) :=
  polys.flatMap fun p => p.exterior

/-- One `histArr[iLat, iLon] += 1` increment. -/
def histStep (h : ℤ × ℤ → Nat) (coord : ℚ × ℚ) : ℤ × ℤ → Nat :=
  fun px => if px = pixelOf coord then h px + 1 else h px

/-- The histogram array built by `complexity.py`: start from zeros and
increment the cell of every exterior-ring coordinate. -/
def histArr (polys : List Polygon) : ℤ × ℤ → Nat :=
  (allCoords polys).foldl histStep (fun _ => 0)

/-- The colour-table index `round(min(255.0, 255.0 * count / 66.0))` used for
a cell whose count is positive. -/
def colourIdx (count : Nat) : ℤ := pyRound (min 255 (255 * (count : ℚ) / 66))

/-! The frame loop of `ripples_flight.py`. -/

/-- What one combination contributes to the `fnames` list of one distance:
nothing when `1000 * dist` is not a multiple of its precision (`continue`),
else the file `istep={istep + 1:06d}.wkb.gz` with
`istep = (1000 * dist) // prec - 1`, provided it exists (`continue`
otherwise). -/
def fnameContrib (exists0 : String → Bool) (dist : Nat) (c : Comb) : List String :=
  if (1000 * dist) % c.prec ≠ 0 then []
  else
    let istep : ℤ := 1000 * (dist : ℤ) / (c.prec : ℤ) - 1
    if exists0 (istepPath c (istep + 1)) then [istepPath c (istep + 1)] else []

/-- The per-combination result files collected for one distance. -/
def fnamesFor (exists0 : String → Bool) (dist : Nat) : List String :=
  combs.flatMap (fnameContrib exists0 dist)

/-- State of the frame loop: the `frames` list passed to `images2mp4`, and
the distances whose frame PNG was actually rendered (written). -/
structure FrameState where
  frames : List String
  renders : List Nat

/-- One iteration of the frame loop: if the frame PNG exists, append it and
skip; else render it only when every combination supplied a result file. -/
def frameStep (exists0 : String → Bool) (st : FrameState) (dist : Nat) :
    FrameState :=
  if exists0 (framePath dist) then
    { st with frames := st.frames ++ [framePath dist] }
  else if (fnamesFor exists0 dist).length = combs.length then
    { frames := st.frames ++ [framePath dist], renders := st.renders ++ [dist] }
  else st

/-- The distances 1..30000 km swept by the frame loop. -/
def flightDists : List Nat := List.range' 1 30000

/-- The whole frame loop. -/
def frameLoop (exists0 : String → Bool) : FrameState :=
  flightDists.foldl (frameStep exists0) ⟨[], []⟩

/-- A distance contributes a frame when its PNG already exists or it gets
rendered. -/
def keepFrame (exists0 : String → Bool) (dist : Nat) : Bool :=
  exists0 (framePath dist)
    || decide ((fnamesFor exists0 dist).length = combs.length)

/-- A distance gets rendered when its PNG is missing and every combination
supplied a result file. -/
def renderCond (exists0 : String → Bool) (dist : Nat) : Bool :=
  !exists0 (framePath dist)
    && decide ((fnamesFor exists0 dist).length = combs.length)

/-- The maximum sizes of the down-scaled MP4s. -/
def maxSizes : List Nat := [512, 1024, 2048]

/-- The calls to `pyguymer3.media.images2mp4`: the frames list each call gets,
paired with the screen size limit (none for the full-size MP4). -/
def images2mp4Calls (exists0 : String → Bool) : List (List String × Option Nat) :=
  ((frameLoop exists0).frames, none)
    :: maxSizes.map fun s => ((frameLoop exists0).frames, some s)

/-- The records of the shapefile that survive the `NAME`-attribute check of
`saveAllLands` (all others are skipped by `continue`). -/
def recordsConsidered (avoid : List String) (records : List Record) : List Record :=
  records.filter fun r => avoid.contains r.name

/-- The three (angle count, coastline resolution, step precision) tuples the
spec says are swept. -/
def sweptTuples : List (Nat × String × Nat) :=
  [(9, "110m", 116000), (17, "50m", 58000), (33, "10m", 29000)]

/-- A GFT command carries the given parameter tuple in its `--nAng`,
`--NE-resolution` and `--precision` arguments (which sit at fixed positions
16..21 in the built command). -/
def usesTuple (cmd : List String) (t : Nat × String × Nat) : Prop :=
  (cmd.drop 16).take 6
    = ["--nAng", toString t.1, "--NE-resolution", t.2.1,
       "--precision", pyFmtF 1 (t.2.2 : ℚ)]

/-! ## Supporting lemmas -/

/-- Rounding `n / d` cannot exceed a bound `B` with `n ≤ B * d`. -/
lemma natRoundHalfEven_le (n d B : Nat) (hd : 0 < d) (h : n ≤ B * d) :
    natRoundHalfEven n d ≤ B := by
  have h5 : d * (n / d) + n % d = n := Nat.div_add_mod n d
  have hf : n / d ≤ B := by
    have h2 : n / d ≤ B * d / d := Nat.div_le_div_right h
    simpa [Nat.mul_div_cancel _ hd] using h2
  have key : 0 < n % d → n / d < B := by
    intro hr
    have h6 : d * (n / d) < d * B := by
      have h8 : n ≤ d * B := by
        calc n ≤ B * d := h
        _ = d * B := Nat.mul_comm B d
      omega
    exact Nat.lt_of_mul_lt_mul_left h6
  unfold natRoundHalfEven
  split_ifs with h1 h2 h3
  · exact hf
  · exact key (by omega)
  · exact hf
  · exact key (by omega)

/-- Python `round` of a rational between `0` and a natural bound stays in
bounds. -/
lemma pyRound_bounds_nonneg (q : ℚ) (B : Nat) (h0 : 0 ≤ q) (hB : q ≤ (B : ℚ)) :
    0 ≤ pyRound q ∧ pyRound q ≤ (B : ℤ) := by
  have hnum : 0 ≤ q.num := Rat.num_nonneg.mpr h0
  have hdpos : 0 < q.den := q.pos
  constructor
  · unfold pyRound
    rw [if_pos hnum]
    exact Int.natCast_nonneg _
  · unfold pyRound
    rw [if_pos hnum]
    have hle : q.num.toNat ≤ B * q.den := by
      have hd : (0 : ℚ) < (q.den : ℚ) := by exact_mod_cast hdpos
      have h1 : (q.num : ℚ) ≤ (B : ℚ) * (q.den : ℚ) := by
        rw [← Rat.num_div_den q] at hB
        exact (div_le_iff₀ hd).mp hB
      have h2 : q.num ≤ (B : ℤ) * (q.den : ℤ) := by exact_mod_cast h1
      omega
    exact_mod_cast natRoundHalfEven_le _ _ _ hdpos hle

/-- Unrolling the histogram fold: the value at a cell is the initial value
plus the number of coordinates falling in that cell. -/
lemma histArr_foldl (l : List (ℚ × ℚ)) (h : ℤ × ℤ → Nat) (px : ℤ × ℤ) :
    (l.foldl histStep h) px
      = h px + l.countP (fun c => decide (pixelOf c = px)) := by
  induction l generalizing h with
  | nil => simp
  | cons c l ih =>
    rw [List.foldl_cons, ih, List.countP_cons]
    unfold histStep
    by_cases hc : px = pixelOf c
    · simp [hc]
      omega
    · have hc2 : ¬pixelOf c = px := fun hh => hc hh.symm
      simp [hc, hc2]

/-- A combination contributes at most one file, and exactly one precisely
when the divisibility and existence checks both pass. -/
lemma fnameContrib_length (exists0 : String → Bool) (dist : Nat) (c : Comb) :
    (fnameContrib exists0 dist c).length ≤ 1 ∧
    ((fnameContrib exists0 dist c).length = 1 ↔
      (1000 * dist) % c.prec = 0 ∧
      exists0 (istepPath c (1000 * (dist : ℤ) / (c.prec : ℤ))) = true) := by
  unfold fnameContrib
  have hs : 1000 * (dist : ℤ) / (c.prec : ℤ) - 1 + 1
      = 1000 * (dist : ℤ) / (c.prec : ℤ) := by ring
  by_cases hm : (1000 * dist) % c.prec = 0
  · cases he : exists0 (istepPath c (1000 * (dist : ℤ) / (c.prec : ℤ))) <;>
      simp [hm, hs, he]
  · simp [hm]

/-- The `fnames` list never outgrows the combinations list. -/
lemma fnames_le (exists0 : String → Bool) (dist : Nat) (cs : List Comb) :
    (cs.flatMap (fnameContrib exists0 dist)).length ≤ cs.length := by
  induction cs with
  | nil => simp
  | cons c cs ih =>
    rw [List.flatMap_cons, List.length_append, List.length_cons]
    have h1 := (fnameContrib_length exists0 dist c).1
    omega

/-- The `fnames` list is full exactly when every combination passes both its
divisibility check and its existence check. -/
lemma fnames_full_iff (exists0 : String → Bool) (dist : Nat) (cs : List Comb) :
    (cs.flatMap (fnameContrib exists0 dist)).length = cs.length ↔
      ∀ c ∈ cs, (1000 * dist) % c.prec = 0 ∧
        exists0 (istepPath c (1000 * (dist : ℤ) / (c.prec : ℤ))) = true := by
  induction cs with
  | nil => simp
  | cons c cs ih =>
    rw [List.flatMap_cons, List.length_append, List.length_cons,
      List.forall_mem_cons, ← ih]
    have h1 := (fnameContrib_length exists0 dist c).1
    have h2 := (fnameContrib_length exists0 dist c).2
    have h3 := fnames_le exists0 dist cs
    constructor
    · intro hcap
      have hc1 : (fnameContrib exists0 dist c).length = 1 := by omega
      exact ⟨h2.mp hc1, by omega⟩
    · rintro ⟨hp, hr⟩
      have hc1 := h2.mpr hp
      omega

/-- Unrolling the frame loop: the frames are the kept distances mapped to
their paths, the rendered distances are those passing the render condition. -/
lemma frameLoop_foldl (exists0 : String → Bool) (l : List Nat) (st : FrameState) :
    l.foldl (frameStep exists0) st
      = ⟨st.frames ++ (l.filter (keepFrame exists0)).map framePath,
         st.renders ++ l.filter (renderCond exists0)⟩ := by
  induction l generalizing st with
  | nil => simp
  | cons d l ih =>
    rw [List.foldl_cons, ih]
    unfold frameStep keepFrame renderCond
    by_cases h1 : exists0 (framePath d) <;>
      by_cases h2 : (fnamesFor exists0 d).length = combs.length <;>
        simp [h1, h2]

/-- If a record's temporary file already exists at the start, the record loop
never processes that record and never writes that file, whatever its starting
state already guaranteed. -/
lemma phase1_skip (exists0 : String → Bool) (dname : String)
    (avoid : List String) (l : List Record) (st : Phase1State) (r : Record)
    (hex : exists0 (tmpPath dname r) = true)
    (h1 : r ∉ st.computed) (h2 : tmpPath dname r ∉ st.writes) :
    r ∉ (l.foldl (saveAllLandsStep exists0 dname avoid) st).computed ∧
    tmpPath dname r ∉ (l.foldl (saveAllLandsStep exists0 dname avoid) st).writes := by
  induction l generalizing st with
  | nil => exact ⟨h1, h2⟩
  | cons r0 l ih =>
    rw [List.foldl_cons]
    apply ih
    · unfold saveAllLandsStep
      split_ifs with ha hb hc
      · exact h1
      · simp only [List.mem_append, List.mem_singleton]
        rintro (hmem | rfl)
        · exact h1 hmem
        · rw [hex] at hb
          simp at hb
      · simp only [List.mem_append, List.mem_singleton]
        rintro (hmem | rfl)
        · exact h1 hmem
        · rw [hex] at hb
          simp at hb
      · exact h1
    · unfold saveAllLandsStep
      split_ifs with ha hb hc
      · exact h2
      · exact h2
      · simp only [List.mem_append, List.mem_singleton]
        rintro (hmem | heq)
        · exact h2 hmem
        · rw [← heq, hex] at hb
          simp at hb
      · exact h2

/-- Everything the record loop processes or writes comes from a record of the
input list whose name passed the `avoidCountries` filter. -/
lemma phase1_origin (exists0 : String → Bool) (dname : String)
    (avoid : List String) (l : List Record) (st : Phase1State) :
    (∀ r, r ∈ (l.foldl (saveAllLandsStep exists0 dname avoid) st).computed →
       r ∈ st.computed ∨ (r ∈ l ∧ avoid.contains r.name = true)) ∧
    (∀ p, p ∈ (l.foldl (saveAllLandsStep exists0 dname avoid) st).writes →
       p ∈ st.writes ∨
         ∃ r, r ∈ l ∧ avoid.contains r.name = true ∧ p = tmpPath dname r) := by
  induction l generalizing st with
  | nil => simp
  | cons r0 l ih =>
    rw [List.foldl_cons]
    obtain ⟨ihc, ihw⟩ := ih (saveAllLandsStep exists0 dname avoid st r0)
    constructor
    · intro r hr
      rcases ihc r hr with h | h
      · unfold saveAllLandsStep at h
        split_ifs at h with ha hb hc
        · exact Or.inl h
        · simp only [List.mem_append, List.mem_singleton] at h
          rcases h with h | rfl
          · exact Or.inl h
          · exact Or.inr ⟨List.mem_cons_self _ _, ha⟩
        · simp only [List.mem_append, List.mem_singleton] at h
          rcases h with h | rfl
          · exact Or.inl h
          · exact Or.inr ⟨List.mem_cons_self _ _, ha⟩
        · exact Or.inl h
      · exact Or.inr ⟨List.mem_cons_of_mem _ h.1, h.2⟩
    · intro p hp
      rcases ihw p hp with h | h
      · unfold saveAllLandsStep at h
        split_ifs at h with ha hb hc
        · exact Or.inl h
        · exact Or.inl h
        · simp only [List.mem_append, List.mem_singleton] at h
          rcases h with h | rfl
          · exact Or.inl h
          · exact Or.inr ⟨r0, List.mem_cons_self _ _, ha, rfl⟩
        · exact Or.inl h
      · obtain ⟨r, hr, hav, hpeq⟩ := h
        exact Or.inr ⟨r, List.mem_cons_of_mem _ hr, hav, hpeq⟩

/-- Evaluate one `--duration` string from the numerator and denominator of the
reduced fraction `dur / 24`. -/
lemma durStr_eq (d : Nat) (n : ℤ) (dn : Nat) (s : String)
    (hn : ((d : ℚ) / 24).num = n) (hd : ((d : ℚ) / 24).den = dn)
    (hs : (if n < 0 then "-" else "") ++ fixedBodyCore 2 n.natAbs dn = s) :
    durStr d = s := by
  unfold durStr pyFmtF fixedBody
  rw [hn, hd, hs]

/-- The 24 `--duration` strings, matching Python `f"{dur / 24.0:.2f}"` for
`dur` in 1..24 (rounding half to even; the ties 3, 9, 15, 21 are exact). -/
lemma durStr_table :
    ripplesDurs.map durStr
      = ["0.04", "0.08", "0.12", "0.17", "0.21", "0.25", "0.29", "0.33",
         "0.38", "0.42", "0.46", "0.50", "0.54", "0.58", "0.62", "0.67",
         "0.71", "0.75", "0.79", "0.83", "0.88", "0.92", "0.96", "1.00"] := by
  have h : ripplesDurs
      = [1, 2, 3, 4, 5, 6, 7, 8, 9, 10, 11, 12, 13, 14, 15, 16, 17, 18, 19,
         20, 21, 22, 23, 24] := by decide
  rw [h]
  simp only [List.map_cons, List.map_nil]
  rw [durStr_eq 1 1 24 "0.04" (by norm_num) (by norm_num) (by decide),
    durStr_eq 2 1 12 "0.08" (by norm_num) (by norm_num) (by decide),
    durStr_eq 3 1 8 "0.12" (by norm_num) (by norm_num) (by decide),
    durStr_eq 4 1 6 "0.17" (by norm_num) (by norm_num) (by decide),
    durStr_eq 5 5 24 "0.21" (by norm_num) (by norm_num) (by decide),
    durStr_eq 6 1 4 "0.25" (by norm_num) (by norm_num) (by decide),
    durStr_eq 7 7 24 "0.29" (by norm_num) (by norm_num) (by decide),
    durStr_eq 8 1 3 "0.33" (by norm_num) (by norm_num) (by decide),
    durStr_eq 9 3 8 "0.38" (by norm_num) (by norm_num) (by decide),
    durStr_eq 10 5 12 "0.42" (by norm_num) (by norm_num) (by decide),
    durStr_eq 11 11 24 "0.46" (by norm_num) (by norm_num) (by decide),
    durStr_eq 12 1 2 "0.50" (by norm_num) (by norm_num) (by decide),
    durStr_eq 13 13 24 "0.54" (by norm_num) (by norm_num) (by decide),
    durStr_eq 14 7 12 "0.58" (by norm_num) (by norm_num) (by decide),
    durStr_eq 15 5 8 "0.62" (by norm_num) (by norm_num) (by decide),
    durStr_eq 16 2 3 "0.67" (by norm_num) (by norm_num) (by decide),
    durStr_eq 17 17 24 "0.71" (by norm_num) (by norm_num) (by decide),
    durStr_eq 18 3 4 "0.75" (by norm_num) (by norm_num) (by decide),
    durStr_eq 19 19 24 "0.79" (by norm_num) (by norm_num) (by decide),
    durStr_eq 20 5 6 "0.83" (by norm_num) (by norm_num) (by decide),
    durStr_eq 21 7 8 "0.88" (by norm_num) (by norm_num) (by decide),
    durStr_eq 22 11 12 "0.92" (by norm_num) (by norm_num) (by decide),
    durStr_eq 23 23 24 "0.96" (by norm_num) (by norm_num) (by decide),
    durStr_eq 24 1 1 "1.00" (by norm_num) (by norm_num) (by decide)]

/-- Distinct swept durations give distinct `--duration` strings. -/
lemma durStr_inj : ∀ x ∈ ripplesDurs, ∀ y ∈ ripplesDurs,
    durStr x = durStr y → x = y := by
  have h := List.inj_on_of_nodup_map (f := durStr) (l := ripplesDurs)
    (by rw [durStr_table]; decide)
  intro x hx y hy hxy
  exact h hx hy hxy

/-- The combinations list has no duplicates (their angle counts differ). -/
lemma combs_nodup : combs.Nodup :=
  List.Nodup.of_map Comb.nAng (by decide)

/-- The swept durations list has no duplicates. -/
lemma ripplesDurs_nodup : ripplesDurs.Nodup := by decide

/-- Distinct combinations give distinct coastline-resolution strings. -/
lemma combs_neRes_inj : ∀ x ∈ combs, ∀ y ∈ combs, x.neRes = y.neRes → x = y := by
  intro x hx y hy h
  simp only [combs, List.mem_cons, List.not_mem_nil, or_false] at hx hy
  rcases hx with rfl | rfl | rfl <;> rcases hy with rfl | rfl | rfl <;>
    first
      | rfl
      | exact absurd h (by decide)

/-- A `flatMap` of singletons is a `map`. -/
lemma flatMap_singleton_eq_map {α β : Type} (f : α → β) (l : List α) :
    (l.flatMap fun x => [f x]) = l.map f := by
  induction l with
  | nil => rfl
  | cons a l ih => simp [ih]

/-- Without `--dry-run`, `complexity.py` runs exactly the commands it built. -/
lemma complexityRuns_false (pv : String) (dbg : Bool) :
    complexityRuns pv dbg false = complexityBuilt pv dbg := by
  unfold complexityRuns complexityBuilt
  simp only [Bool.false_eq_true, if_false]
  exact flatMap_singleton_eq_map _ _

/-- Without `--dry-run`, `ripples_flight.py` runs exactly the commands it
built. -/
lemma ripplesRuns_false (pv : String) (dbg plot : Bool) :
    ripplesRuns pv dbg plot false = ripplesBuilt pv dbg plot := by
  unfold ripplesRuns ripplesBuilt
  simp only [Bool.false_eq_true, if_false]
  congr 1

/-- The commands built by `complexity.py` are pairwise distinct (the `--nAng`
argument at position 17 differs). -/
lemma complexityBuilt_nodup (pv : String) (dbg : Bool) :
    (complexityBuilt pv dbg).Nodup := by
  unfold complexityBuilt
  apply List.Nodup.map_on ?_ combs_nodup
  intro x hx y hy hxy
  have h17 : some (toString x.nAng) = some (toString y.nAng) :=
    congrArg (fun l => l[17]?) hxy
  injection h17 with h17
  simp only [combs, List.mem_cons, List.not_mem_nil, or_false] at hx hy
  rcases hx with rfl | rfl | rfl <;> rcases hy with rfl | rfl | rfl <;>
    first
      | rfl
      | exact absurd h17 (by decide)

/-- The ripples command list is the map of the command builder over the
(duration, combination) product. -/
lemma ripplesBuilt_eq_map_product (pv : String) (dbg plot : Bool) :
    ripplesBuilt pv dbg plot
      = (ripplesDurs ×ˢ combs).map fun p => gftCmd_ripples pv dbg plot p.1 p.2 := by
  unfold ripplesBuilt
  have hsp : (ripplesDurs ×ˢ combs) = ripplesDurs.flatMap fun a => combs.map (Prod.mk a) := rfl
  rw [hsp, List.map_flatMap]
  congr 1

/-- The commands built by `ripples_flight.py` are pairwise distinct: the
`--duration` argument at position 7 pins down the duration and the
`--NE-resolution` argument at position 19 pins down the combination. -/
lemma ripplesBuilt_nodup (pv : String) (dbg plot : Bool) :
    (ripplesBuilt pv dbg plot).Nodup := by
  rw [ripplesBuilt_eq_map_product]
  apply List.Nodup.map_on ?_ (List.Nodup.product ripplesDurs_nodup combs_nodup)
  rintro ⟨a, c⟩ hp ⟨b, d⟩ hq h
  have h7 : some (durStr a) = some (durStr b) := congrArg (fun l => l[7]?) h
  have h19 : some c.neRes = some d.neRes := congrArg (fun l => l[19]?) h
  injection h7 with h7
  injection h19 with h19
  obtain ⟨ha, hc⟩ := List.pair_mem_product.mp hp
  obtain ⟨hb, hd⟩ := List.pair_mem_product.mp hq
  have hab : a = b := durStr_inj a ha b hb h7
  have hcd : c = d := combs_neRes_inj c hc d hd h19
  rw [hab, hcd]

/-- Projection lemmas for the frame loop. -/
lemma frameLoop_frames_eq (exists0 : String → Bool) :
    (frameLoop exists0).frames
      = (flightDists.filter (keepFrame exists0)).map framePath := by
  rw [frameLoop, frameLoop_foldl]
  simp

/-- The rendered distances are those passing the render condition. -/
lemma frameLoop_renders_eq (exists0 : String → Bool) :
    (frameLoop exists0).renders = flightDists.filter (renderCond exists0) := by
  rw [frameLoop, frameLoop_foldl]
  simp

/-- In a duplicate-free list, a member is counted exactly once. -/
lemma count_one_of_nodup_mem {α : Type} [BEq α] [LawfulBEq α] {l : List α}
    {a : α} (hn : l.Nodup) (ha : a ∈ l) : l.count a = 1 := by
  induction l with
  | nil => cases ha
  | cons x l ih =>
    rw [List.count_cons]
    rcases List.mem_cons.mp ha with rfl | hmem
    · have hnx : a ∉ l := (List.nodup_cons.mp hn).1
      rw [List.count_eq_zero.mpr hnx]
      simp
    · have hne : a ≠ x := by
        rintro rfl
        exact (List.nodup_cons.mp hn).1 hmem
      have hbeq : (x == a) = false := beq_eq_false_iff_ne.mpr (Ne.symm hne)
      rw [ih (List.nodup_cons.mp hn).2 hmem, hbeq]
      simp

/-! ## The claims -/

/-- C1: with `--dry-run`, neither top-level script passes anything to
`subprocess.run`; without it, every command built during the parameter sweep
(one per combination in `complexity.py`, one per (duration, combination) pair
in `ripples_flight.py`) is passed to `subprocess.run` exactly once. -/
theorem dry_run_exactly_once (pv : String) (dbg plot : Bool) :
    (complexityRuns pv dbg true = [] ∧ ripplesRuns pv dbg plot true = []) ∧
    (∀ cmd ∈ complexityBuilt pv dbg,
      (complexityRuns pv dbg false).count cmd = 1) ∧
    (∀ cmd ∈ ripplesBuilt pv dbg plot,
      (ripplesRuns pv dbg plot false).count cmd = 1) := by
  refine ⟨⟨?_, ?_⟩, ?_, ?_⟩
  · simp [complexityRuns]
  · simp [ripplesRuns]
  · intro cmd h
    rw [complexityRuns_false]
    exact count_one_of_nodup_mem (complexityBuilt_nodup pv dbg) h
  · intro cmd h
    rw [ripplesRuns_false]
    exact count_one_of_nodup_mem (ripplesBuilt_nodup pv dbg plot) h

/-- Witness for C1 at a concrete command. -/
theorem dry_run_exactly_once_witness :
    gftCmd_complexity "3.12" false ⟨9, "110m", 116000, (1.0, 0.0, 0.0, 1.0)⟩
        ∈ complexityBuilt "3.12" false ∧
    (complexityRuns "3.12" false false).count
        (gftCmd_complexity "3.12" false ⟨9, "110m", 116000, (1.0, 0.0, 0.0, 1.0)⟩)
      = 1 := by
  have hmem : gftCmd_complexity "3.12" false ⟨9, "110m", 116000, (1.0, 0.0, 0.0, 1.0)⟩
      ∈ complexityBuilt "3.12" false :=
    List.mem_map_of_mem _ (List.Mem.head _)
  exact ⟨hmem, (dry_run_exactly_once "3.12" false false).2.1 _ hmem⟩

/-- C2: if an expected output file (a per-country temporary WKB in
`saveAllLands`, a per-distance frame PNG in `ripples_flight.py`) already
exists when the script reaches it, the computation producing it is skipped
and the file is not rewritten. -/
theorem skip_existing_outputs :
    (∀ (exists0 : String → Bool) (dname : String) (avoid : List String)
        (records : List Record) (r : Record),
      exists0 (tmpPath dname r) = true →
        r ∉ (saveAllLandsPhase1 exists0 dname avoid records).computed ∧
        tmpPath dname r ∉ (saveAllLandsPhase1 exists0 dname avoid records).writes) ∧
    (∀ (exists0 : String → Bool) (dist : Nat),
      exists0 (framePath dist) = true →
        dist ∉ (frameLoop exists0).renders ∧
        framePath dist ∉ (frameLoop exists0).renders.map framePath) := by
  constructor
  · intro exists0 dname avoid records r hex
    exact phase1_skip exists0 dname avoid records ⟨[], []⟩ r hex
      (by simp) (by simp)
  · intro exists0 dist hex
    rw [frameLoop_renders_eq]
    constructor
    · intro hmem
      have hcond := List.of_mem_filter hmem
      unfold renderCond at hcond
      rw [hex] at hcond
      simp at hcond
    · intro hmem
      rw [List.mem_map] at hmem
      obtain ⟨d, hd, hdeq⟩ := hmem
      have hcond := List.of_mem_filter hd
      unfold renderCond at hcond
      have hx : exists0 (framePath d) = true := by rw [hdeq]; exact hex
      rw [hx] at hcond
      simp at hcond

/-- Witness for C2: with every file present, nothing is recomputed. -/
theorem skip_existing_outputs_witness :
    ((fun _ => true) (tmpPath "d" ⟨"Russia", 0, 0, 0, []⟩) = true) ∧
    (⟨"Russia", 0, 0, 0, []⟩ : Record)
        ∉ (saveAllLandsPhase1 (fun _ => true) "d" avoidCountriesDefault
            [⟨"Russia", 0, 0, 0, []⟩]).computed ∧
    tmpPath "d" ⟨"Russia", 0, 0, 0, []⟩
        ∉ (saveAllLandsPhase1 (fun _ => true) "d" avoidCountriesDefault
            [⟨"Russia", 0, 0, 0, []⟩]).writes :=
  ⟨rfl, skip_existing_outputs.1 (fun _ => true) "d" avoidCountriesDefault
    [⟨"Russia", 0, 0, 0, []⟩] ⟨"Russia", 0, 0, 0, []⟩ rfl⟩

/-- C3: the swept parameter tuples are exactly (9, "110m", 116000),
(17, "50m", 58000) and (33, "10m", 29000), and every GFT invocation built by
either script carries one of these tuples in its `--nAng`, `--NE-resolution`
and `--precision` arguments. -/
theorem swept_tuples_spec :
    combs.map (fun c => (c.nAng, c.neRes, c.prec)) = sweptTuples ∧
    (∀ (pv : String) (dbg : Bool), ∀ cmd ∈ complexityBuilt pv dbg,
      ∃ t ∈ sweptTuples, usesTuple cmd t) ∧
    (∀ (pv : String) (dbg plot : Bool), ∀ cmd ∈ ripplesBuilt pv dbg plot,
      ∃ t ∈ sweptTuples, usesTuple cmd t) := by
  refine ⟨by decide, ?_, ?_⟩
  · intro pv dbg cmd hcmd
    unfold complexityBuilt at hcmd
    rw [List.mem_map] at hcmd
    obtain ⟨c, hc, rfl⟩ := hcmd
    simp only [combs, List.mem_cons, List.not_mem_nil, or_false] at hc
    rcases hc with rfl | rfl | rfl
    · exact ⟨(9, "110m", 116000), by decide, rfl⟩
    · exact ⟨(17, "50m", 58000), by decide, rfl⟩
    · exact ⟨(33, "10m", 29000), by decide, rfl⟩
  · intro pv dbg plot cmd hcmd
    unfold ripplesBuilt at hcmd
    rw [List.mem_flatMap] at hcmd
    obtain ⟨dur, hdur, hcmd⟩ := hcmd
    rw [List.mem_map] at hcmd
    obtain ⟨c, hc, rfl⟩ := hcmd
    simp only [combs, List.mem_cons, List.not_mem_nil, or_false] at hc
    rcases hc with rfl | rfl | rfl
    · exact ⟨(9, "110m", 116000), by decide, rfl⟩
    · exact ⟨(17, "50m", 58000), by decide, rfl⟩
    · exact ⟨(33, "10m", 29000), by decide, rfl⟩

/-- Witness for C3 at a concrete built command. -/
theorem swept_tuples_spec_witness :
    gftCmd_complexity "3.12" false ⟨9, "110m", 116000, (1.0, 0.0, 0.0, 1.0)⟩
        ∈ complexityBuilt "3.12" false ∧
    ∃ t ∈ sweptTuples,
      usesTuple (gftCmd_complexity "3.12" false
        ⟨9, "110m", 116000, (1.0, 0.0, 0.0, 1.0)⟩) t := by
  have hmem : gftCmd_complexity "3.12" false ⟨9, "110m", 116000, (1.0, 0.0, 0.0, 1.0)⟩
      ∈ complexityBuilt "3.12" false :=
    List.mem_map_of_mem _ (List.Mem.head _)
  exact ⟨hmem, swept_tuples_spec.2.1 "3.12" false _ hmem⟩

/-- C4: for a distance in 1..30000 whose frame PNG does not exist yet, the
frame is rendered if and only if, for every one of the three combinations,
`1000 * dist` is an exact multiple of its precision and the file
`istep={(1000 * dist) // prec:06d}.wkb.gz` exists in its convention-named
directory; otherwise the frame is silently skipped. -/
theorem frame_render_iff (exists0 : String → Bool) (dist : Nat)
    (h1 : 1 ≤ dist) (h2 : dist ≤ 30000)
    (h3 : exists0 (framePath dist) = false) :
    dist ∈ (frameLoop exists0).renders ↔
      ∀ c ∈ combs, (1000 * dist) % c.prec = 0 ∧
        exists0 (istepPath c (1000 * (dist : ℤ) / (c.prec : ℤ))) = true := by
  rw [frameLoop_renders_eq, List.mem_filter]
  have hmem : dist ∈ flightDists := by
    unfold flightDists
    rw [List.mem_range'_1]
    omega
  unfold renderCond fnamesFor
  rw [h3]
  simp only [hmem, true_and, Bool.not_false, Bool.true_and, decide_eq_true_eq]
  exact fnames_full_iff exists0 dist combs

/-- Witness for C4 at distance 116 with an empty filesystem. -/
theorem frame_render_iff_witness :
    (1 ≤ 116 ∧ 116 ≤ 30000 ∧ (fun _ => false) (framePath 116) = false) ∧
    (116 ∈ (frameLoop (fun _ => false)).renders ↔
      ∀ c ∈ combs, (1000 * 116) % c.prec = 0 ∧
        (fun _ => false) (istepPath c (1000 * (116 : ℤ) / (c.prec : ℤ))) = true) :=
  ⟨⟨by decide, by decide, rfl⟩,
    frame_render_iff (fun _ => false) 116 (by decide) (by decide) rfl⟩

/-- C5: `saveAllLands` returns `False` — writing neither `wName` nor the
derived `gName` — exactly when no temporary per-country file yields any
polygon; otherwise it writes both outputs and returns `True`. -/
theorem saveAllLands_return_spec (w : String)
    (files : List (String × List Polygon)) :
    ((saveAllLandsAggregate w files).1 = false ↔ ∀ f ∈ files, f.2 = []) ∧
    ((saveAllLandsAggregate w files).1 = false →
      (saveAllLandsAggregate w files).2 = []) ∧
    ((saveAllLandsAggregate w files).1 = true →
      (saveAllLandsAggregate w files).2 = [w, gNameOf w]) := by
  unfold saveAllLandsAggregate
  by_cases h : ((files.flatMap fun f => f.2).isEmpty = true)
  · rw [if_pos h]
    have h2 : ∀ f ∈ files, f.2 = [] := by
      rw [List.isEmpty_iff, List.flatMap_eq_nil_iff] at h
      exact h
    exact ⟨iff_of_true rfl h2, fun _ => rfl, fun hco => Bool.noConfusion hco⟩
  · rw [if_neg h]
    have h2 : ¬∀ f ∈ files, f.2 = [] := by
      rw [List.isEmpty_iff, List.flatMap_eq_nil_iff] at h
      exact h
    exact ⟨iff_of_false (fun hco => Bool.noConfusion hco) h2,
      fun hco => Bool.noConfusion hco, fun _ => rfl⟩

/-- Witness for C5 on a one-file input. -/
theorem saveAllLands_return_spec_witness :
    ((saveAllLandsAggregate "a.wkb.gz" [("t", [⟨[(0, 0)]⟩])]).1 = false ↔
      ∀ f ∈ [(("t" : String), [(⟨[(0, 0)]⟩ : Polygon)])], f.2 = []) ∧
    ((saveAllLandsAggregate "a.wkb.gz" [("t", [⟨[(0, 0)]⟩])]).1 = false →
      (saveAllLandsAggregate "a.wkb.gz" [("t", [⟨[(0, 0)]⟩])]).2 = []) ∧
    ((saveAllLandsAggregate "a.wkb.gz" [("t", [⟨[(0, 0)]⟩])]).1 = true →
      (saveAllLandsAggregate "a.wkb.gz" [("t", [⟨[(0, 0)]⟩])]).2
        = ["a.wkb.gz", gNameOf "a.wkb.gz"]) :=
  saveAllLands_return_spec "a.wkb.gz" [("t", [⟨[(0, 0)]⟩])]

/-- C6: every histogram entry equals the number of exterior-ring coordinates,
over all polygons of the file, whose clamped pixel indices match that cell;
cells receiving no coordinate stay zero. -/
theorem histArr_counts (polys : List Polygon) (iLat iLon : ℤ) :
    histArr polys (iLat, iLon)
      = (allCoords polys).countP
          (fun c => decide (iLonOf c.1 = iLon ∧ iLatOf c.2 = iLat)) := by
  unfold histArr
  rw [histArr_foldl, Nat.zero_add]
  apply List.countP_congr
  intro c hc
  simp [pixelOf, Prod.ext_iff, and_comm]

/-- C7: every result path is a fixed function of its parameter tuple, with
the parameters embedded directly in the path components, so equal parameter
tuples always produce equal paths. -/
theorem path_pure_function :
    (∀ c₁ c₂ : Comb, c₁ = c₂ → dname_ripples c₁ = dname_ripples c₂) ∧
    (∀ (c₁ c₂ : Comb) (i₁ i₂ : ℤ), c₁ = c₂ → i₁ = i₂ →
      istepPath c₁ i₁ = istepPath c₂ i₂) ∧
    (∀ d₁ d₂ : Nat, d₁ = d₂ → framePath d₁ = framePath d₂) ∧
    (∀ c₁ c₂ : Comb, c₁ = c₂ → allLandsPath c₁ = allLandsPath c₂) ∧
    (∀ c₁ c₂ : Comb, c₁ = c₂ → complexityPngPath c₁ = complexityPngPath c₂) ∧
    (∀ (d₁ d₂ : String) (r₁ r₂ : Record), d₁ = d₂ → r₁ = r₂ →
      tmpPath d₁ r₁ = tmpPath d₂ r₂) ∧
    (∀ (c : Comb) (i : ℤ),
      istepPath c i
        = dname_ripples c ++ "/istep=" ++ pyFmtIntPad 6 i ++ ".wkb.gz") ∧
    (∀ c : Comb, allLandsPath c = dname_complexity c ++ "/allLands.wkb.gz") ∧
    (∀ dist : Nat, framePath dist
      = outDir ++ "/lon=" ++ lonStr ++ "_lat=" ++ latStr ++ "/dist="
          ++ pyFmtNatPad 5 dist ++ "_Flight.png") :=
  ⟨fun _ _ h => by rw [h],
   fun _ _ _ _ h hi => by rw [h, hi],
   fun _ _ h => by rw [h],
   fun _ _ h => by rw [h],
   fun _ _ h => by rw [h],
   fun _ _ _ _ h hr => by rw [h, hr],
   fun _ _ => rfl,
   fun _ => rfl,
   fun _ => rfl⟩

/-- Witness for C7 at a concrete tuple. -/
theorem path_pure_function_witness :
    framePath 42 = framePath 42 ∧
    istepPath ⟨9, "110m", 116000, (1.0, 0.0, 0.0, 1.0)⟩ 8
      = istepPath ⟨9, "110m", 116000, (1.0, 0.0, 0.0, 1.0)⟩ 8 :=
  ⟨path_pure_function.2.2.1 42 42 rfl,
   path_pure_function.2.1 _ _ 8 8 rfl rfl⟩

/-- C8: the computed raster indices are always in bounds: `iLon` lies in
[0, 35] and `iLat` in [0, 17] for every rational coordinate, and for a
positive cell count the colour-table index lies in [0, 255]. -/
theorem raster_index_bounds :
    (∀ x : ℚ, 0 ≤ iLonOf x ∧ iLonOf x ≤ 35) ∧
    (∀ y : ℚ, 0 ≤ iLatOf y ∧ iLatOf y ≤ 17) ∧
    (∀ count : Nat, 0 < count →
      0 ≤ colourIdx count ∧ colourIdx count ≤ 255) := by
  refine ⟨fun x => ⟨le_max_left _ _, ?_⟩, fun y => ⟨le_max_left _ _, ?_⟩,
    fun count hc => ?_⟩
  · unfold iLonOf nLon
    exact max_le (by norm_num) ((min_le_left _ _).trans (by norm_num))
  · unfold iLatOf nLat
    exact max_le (by norm_num) ((min_le_left _ _).trans (by norm_num))
  · unfold colourIdx
    have h := pyRound_bounds_nonneg (min 255 (255 * (count : ℚ) / 66)) 255
      (le_min (by norm_num) (by positivity))
      ((min_le_left _ _).trans (by norm_num))
    exact ⟨h.1, h.2.trans (by norm_num)⟩

/-- Witness for C8 at count 3. -/
theorem raster_index_bounds_witness :
    0 < 3 ∧ (0 ≤ colourIdx 3 ∧ colourIdx 3 ≤ 255) :=
  ⟨by decide, raster_index_bounds.2.2 3 (by decide)⟩

/-- C9: `saveAllLands` lets a shapefile record through its name check exactly
when the record's `NAME` is in `avoidCountries` (by default Baikonur, Iran,
Russia, Ukraine); records for all other countries are skipped, are never
processed, and contribute no written geometry. -/
theorem record_name_filter :
    avoidCountriesDefault = ["Baikonur", "Iran", "Russia", "Ukraine"] ∧
    (∀ (avoid : List String) (records : List Record) (r : Record),
      r ∈ records →
        (r ∈ recordsConsidered avoid records ↔ avoid.contains r.name = true)) ∧
    (∀ (exists0 : String → Bool) (dname : String) (avoid : List String)
        (records : List Record) (r : Record),
      avoid.contains r.name = false →
        r ∉ (saveAllLandsPhase1 exists0 dname avoid records).computed) ∧
    (∀ (exists0 : String → Bool) (dname : String) (avoid : List String)
        (records : List Record) (p : String),
      p ∈ (saveAllLandsPhase1 exists0 dname avoid records).writes →
        ∃ r, r ∈ records ∧ avoid.contains r.name = true ∧ p = tmpPath dname r) := by
  refine ⟨rfl, ?_, ?_, ?_⟩
  · intro avoid records r hr
    unfold recordsConsidered
    rw [List.mem_filter]
    exact ⟨fun h => h.2, fun h => ⟨hr, h⟩⟩
  · intro exists0 dname avoid records r hav hmem
    have h := (phase1_origin exists0 dname avoid records ⟨[], []⟩).1 r hmem
    rcases h with h | h
    · simp at h
    · rw [h.2] at hav
      exact Bool.noConfusion hav
  · intro exists0 dname avoid records p hp
    have h := (phase1_origin exists0 dname avoid records ⟨[], []⟩).2 p hp
    rcases h with h | h
    · simp at h
    · exact h

/-- Witness for C9: a record named "France" fails the filter. -/
theorem record_name_filter_witness :
    ((⟨"France", 0, 0, 0, []⟩ : Record)
        ∈ recordsConsidered avoidCountriesDefault [⟨"France", 0, 0, 0, []⟩]
      ↔ avoidCountriesDefault.contains (Record.name ⟨"France", 0, 0, 0, []⟩)
          = true) ∧
    (⟨"France", 0, 0, 0, []⟩ : Record)
        ∉ (saveAllLandsPhase1 (fun _ => false) "d" avoidCountriesDefault
            [⟨"France", 0, 0, 0, []⟩]).computed :=
  ⟨record_name_filter.2.1 avoidCountriesDefault [⟨"France", 0, 0, 0, []⟩]
      ⟨"France", 0, 0, 0, []⟩ (List.Mem.head _),
   record_name_filter.2.2.1 (fun _ => false) "d" avoidCountriesDefault
      [⟨"France", 0, 0, 0, []⟩] ⟨"France", 0, 0, 0, []⟩ (by decide)⟩

/-- C10: the frames list contains frame paths in strictly increasing distance
order (it is the image of a strictly increasing distance list, each distance
contributing at most one path), and the very same list is handed to every
`images2mp4` call, full-size and down-scaled alike. -/
theorem frames_ordered (exists0 : String → Bool) :
    (frameLoop exists0).frames
        = (flightDists.filter (keepFrame exists0)).map framePath ∧
    (flightDists.filter (keepFrame exists0)).Pairwise (· < ·) ∧
    ∀ call ∈ images2mp4Calls exists0, call.1 = (frameLoop exists0).frames := by
  refine ⟨frameLoop_frames_eq exists0, ?_, ?_⟩
  · apply List.Pairwise.filter
    unfold flightDists
    exact List.pairwise_lt_range' 1 30000
  · intro call hc
    unfold images2mp4Calls at hc
    rcases List.mem_cons.mp hc with rfl | hc2
    · with_reducible rfl
    · rw [List.mem_map] at hc2
      obtain ⟨s, hs, rfl⟩ := hc2
      with_reducible rfl

/-- Witness for C10: the first `images2mp4` call receives the frames list. -/
theorem frames_ordered_witness :
    (((frameLoop (fun _ => false)).frames, (none : Option Nat))
        ∈ images2mp4Calls (fun _ => false)) ∧
    (((frameLoop (fun _ => false)).frames, (none : Option Nat)).1
        = (frameLoop (fun _ => false)).frames) :=
  ⟨List.Mem.head _,
   (frames_ordered (fun _ => false)).2.2 _ (List.Mem.head _)⟩

end GFT
